import Mathlib

/-!
Shallow embedding of `examples/validate_examples.py`: a script that validates
example JSON documents against JSON Schema fragments selected by JSONPath
queries, flattens the hierarchical error tree produced by the validation
engine, and aggregates the outcomes of a fixed list of checks.

External collaborators (the `bc_jsonpath_ng` path engine and the `jsonschema`
validation engine) are modelled as function parameters: the embedding fixes
only the control flow of the script itself, which is what the claims are
about.
-/

namespace ValidateExamples

/-- A parsed JSON document: an immutable tree of JSON-like values. -/
inductive Json where
  | null : Json
  | bool (b : Bool) : Json
  | num (n : Int) : Json
  | str (s : String) : Json
  | arr (items : List Json) : Json
  | obj (fields : List (String × Json)) : Json

/-- A single match returned by `bc_jsonpath_ng.parse(q).find(doc)`: the
matched value together with its concrete path in the document. -/
structure JPMatch where
  value : Json
  full_path : String

/-- The flat error record produced by the script (the `ValidationError`
dataclass): a message and the JSON path of the offending data. -/
structure ValidationError where
  message : String
  json_path : String
deriving DecidableEq, Repr

/-- A `jsonschema.ValidationError`: a hierarchical error node carrying a
message, a resolved JSON path, and a (possibly empty) list of child errors
(`context`) for composite keyword failures such as `anyOf`. -/
inductive JsonschemaError where
  | mk (message : String) (json_path : String) (context : List JsonschemaError)

/-- Message of a raw error node. -/
def JsonschemaError.message : JsonschemaError → String
  | .mk m _ _ => m

/-- JSON path of a raw error node. -/
def JsonschemaError.json_path : JsonschemaError → String
  | .mk _ p _ => p

/-- Child errors of a raw error node. -/
def JsonschemaError.context : JsonschemaError → List JsonschemaError
  | .mk _ _ c => c

mutual

/-- Embedding of `_collect_errors`: if `e.context` is truthy (a non-empty
list of child errors) recurse into the children and concatenate their
results in order; otherwise emit one flat entry with this node's own
message and path. -/
def collect_errors : JsonschemaError → List ValidationError
  | .mk m p [] => [{ message := m, json_path := p }]
  | .mk _ _ (c :: cs) => collectErrorsAll (c :: cs)

/-- The `for child in e.context: result.extend(_collect_errors(child))`
loop of `_collect_errors`. -/
def collectErrorsAll : List JsonschemaError → List ValidationError
  | [] => []
  | e :: es => collect_errors e ++ collectErrorsAll es

end

mutual

/-- Pre-order traversal of an error tree: the node itself, then the
pre-order traversals of its children, in order. -/
def preorder : JsonschemaError → List JsonschemaError
  | .mk m p ctx => .mk m p ctx :: preorderAll ctx

/-- Pre-order traversal of a forest of error trees. -/
def preorderAll : List JsonschemaError → List JsonschemaError
  | [] => []
  | e :: es => preorder e ++ preorderAll es

end

/-- A leaf error node: one with no child errors (falsy `context`). -/
def isLeaf (e : JsonschemaError) : Bool := e.context.isEmpty

/-- The flat entry corresponding to a raw error node. -/
def leafEntry (e : JsonschemaError) : ValidationError :=
  { message := e.message, json_path := e.json_path }

/-- A Python exception escaping `validate`: a `ValueError` raised for an
ambiguous/missing path match, or a `jsonschema.SchemaError` raised by
`check_schema` on a malformed schema. -/
inductive PyError where
  | valueError (msg : String) : PyError
  | schemaError (msg : String) : PyError
deriving DecidableEq, Repr

/-- A single-quote character, used in the `ValueError` messages. -/
def sq : String := String.mk [Char.ofNat 39]

/-- The message of the `ValueError` raised when a JSONPath query does not
match exactly one node: reports the actual match count, the query, and the
document context. -/
def foundMatchesMsg (n : Nat) (q : String) (ctx : String) : String :=
  "Found " ++ toString n ++ " matches to JSON path " ++ sq ++ q ++ sq
    ++ " within " ++ ctx ++ " when expecting exactly 1 match"

/-- A `jsonschema.RefResolver`: bound to a base URI and a referrer
document. -/
structure RefResolver where
  base_uri : String
  referrer : Json

/-- A constructed validator instance: yields the hierarchical error trees
for a given instance value (`iter_errors`). -/
structure Validator where
  iter_errors : Json → List JsonschemaError

/-- A validator class as returned by `jsonschema.validators.validator_for`:
it can meta-validate a schema (`check_schema`, raising `SchemaError` on a
malformed schema) and be instantiated with a schema and a reference
resolver. -/
structure ValidatorClass where
  check_schema : Json → Except String Unit
  construct : Json → RefResolver → Validator

/-- Model of `Path(p).as_uri()`: the file-URI of a filesystem path. -/
def path_as_uri (p : String) : String := "file://" ++ p

/-- Embedding of `validate(schema_path, object_path, instance,
instance_path)`.  Parameters standing for external collaborators: `fs`
models `json.load(open(path))`, `pf` models
`bc_jsonpath_ng.parse(query).find(document)`, and `vf` models
`jsonschema.validators.validator_for`.  Control flow follows the source:
load the schema document; resolve the schema fragment and raise
`ValueError` unless exactly one match; resolve the instance fragment the
same way when `instance_path` is given, else use the whole instance;
meta-validate the schema fragment; build a `RefResolver` on the schema
document's URI with the whole document as referrer; run `iter_errors` on
the value and flatten each error tree with `_collect_errors`. -/
def validate (fs : String → Json) (pf : String → Json → List JPMatch)
    (vf : Json → ValidatorClass) (schema_path : String) (object_path : String)
    (inst : Json) (instance_path : Option String) :
    Except PyError (List ValidationError) :=
  let schema_content := fs schema_path
  match pf object_path schema_content with
  | [sm] =>
    let schema := sm.value
    let valueE : Except PyError Json :=
      match instance_path with
      | some ip =>
        match pf ip inst with
        | [im] => .ok im.value
        | ims => .error (.valueError (foundMatchesMsg ims.length ip "value to validate"))
      | none => .ok inst
    match valueE with
    | .error e => .error e
    | .ok value =>
      let validator_class := vf schema
      match validator_class.check_schema schema with
      | .error msg => .error (.schemaError msg)
      | .ok _ =>
        let ref_resolver : RefResolver :=
          { base_uri := path_as_uri schema_path, referrer := schema_content }
        let validator := validator_class.construct schema ref_resolver
        .ok ((validator.iter_errors value).flatMap collect_errors)
  | other =>
    .error (.valueError (foundMatchesMsg other.length object_path "OpenAPI definition"))

/-- One row of the `to_validate` configuration table in `main`. -/
structure CheckSpec where
  example_file : String
  example_jsonpath : String
  schema_file : String
  schema_jsonpath : String
  should_validate : Bool
deriving DecidableEq, Repr

/-- Model of `os.path.join(a, b)` for the two-component joins in `main`. -/
def joinPath (a b : String) : String := a ++ "/" ++ b

/-- The static `to_validate` table of `main`, verbatim from the source. -/
def to_validate : List CheckSpec :=
  [ { example_file := "Example_GeoZone_2_Layers", example_jsonpath := "$",
      schema_file := "Schema_GeoZones", schema_jsonpath := "$", should_validate := true },
    { example_file := "Example_GeoZone_Circle", example_jsonpath := "$",
      schema_file := "Schema_GeoZones", schema_jsonpath := "$", should_validate := true },
    { example_file := "InvalidExample_GeoZone_2_Layers", example_jsonpath := "$",
      schema_file := "Schema_GeoZones", schema_jsonpath := "$", should_validate := false },
    { example_file := "PartialExample_featureGeoJSON", example_jsonpath := "$",
      schema_file := "Schema_GeoZones", schema_jsonpath := "$", should_validate := true },
    { example_file := "PartialExample_GeoZoneProperties", example_jsonpath := "$",
      schema_file := "Schema_GeoZoneProperties", schema_jsonpath := "$", should_validate := true },
    { example_file := "PartialExample_TimePeriod", example_jsonpath := "$",
      schema_file := "Schema_GeoZoneTimePeriod", schema_jsonpath := "$", should_validate := true },
    { example_file := "PartialExample_ZoneAuthority", example_jsonpath := "$",
      schema_file := "Schema_GeoZoneAuthority", schema_jsonpath := "$", should_validate := true } ]

/-- The body of `main`'s loop for one table row: build the schema and
example file paths, load the example document, and call `validate` with the
row's two JSONPath queries. -/
def runCheck (fs : String → Json) (pf : String → Json → List JPMatch)
    (vf : Json → ValidatorClass) (root : String) (c : CheckSpec) :
    Except PyError (List ValidationError) :=
  let schema_path := joinPath (joinPath root "schema") (c.schema_file ++ ".json")
  let instance_path := joinPath (joinPath root "examples") (c.example_file ++ ".json")
  let instance_content := fs instance_path
  validate fs pf vf schema_path c.schema_jsonpath instance_content (some c.example_jsonpath)

/-- Whether one table row's actual outcome (empty vs non-empty error list)
matches its `should_validate` expectation; a row whose check raises never
matches (the exception aborts `main` before any comparison). -/
def checkMatched (fs : String → Json) (pf : String → Json → List JPMatch)
    (vf : Json → ValidatorClass) (root : String) (c : CheckSpec) : Bool :=
  match runCheck fs pf vf root c with
  | .ok errors => errors.isEmpty == c.should_validate
  | .error _ => false

/-- The `for`-loop of `main` over the remaining table rows, threading the
`success` flag: a row whose errors contradict `should_validate` clears the
flag, every other row leaves it; an exception from `validate` propagates
and aborts the loop. -/
def mainLoop (fs : String → Json) (pf : String → Json → List JPMatch)
    (vf : Json → ValidatorClass) (root : String) :
    List CheckSpec → Bool → Except PyError Bool
  | [], success => .ok success
  | c :: rest, success =>
    match runCheck fs pf vf root c with
    | .error e => .error e
    | .ok errors =>
      let success :=
        if c.should_validate then
          if !errors.isEmpty then false else success
        else
          if !errors.isEmpty then success else false
      mainLoop fs pf vf root rest success

/-- Embedding of `main`: run every row of `to_validate` in order starting
from `success = True` and return the final flag (or propagate the first
exception). -/
def main (fs : String → Json) (pf : String → Json → List JPMatch)
    (vf : Json → ValidatorClass) (root : String) : Except PyError Bool :=
  mainLoop fs pf vf root to_validate true

/-- `os.EX_OK`: the conventional all-good process exit status. -/
def EX_OK : Nat := 0

/-- `os.EX_SOFTWARE`: the conventional internal-software-error exit
status. -/
def EX_SOFTWARE : Nat := 70

/-- Embedding of the `__main__` block: exit with `os.EX_OK` when `main()`
returns `True`, with `os.EX_SOFTWARE` when it returns `False`; an uncaught
exception from `main` propagates instead. -/
def mainScript (fs : String → Json) (pf : String → Json → List JPMatch)
    (vf : Json → ValidatorClass) (root : String) : Except PyError Nat :=
  match main fs pf vf root with
  | .ok true => .ok EX_OK
  | .ok false => .ok EX_SOFTWARE
  | .error e => .error e

/-- The mutable store visible to `validate`: the file system it reads from
and the caller's instance document.  The body of `validate` contains no
assignment to either document (its only statements are reads, pure calls
and `raise`), so its state-passing translation returns the store
unchanged: `validate`'s only effect on the store is reading files. -/
structure Store where
  files : String → Json
  instanceDoc : Json

/-- State-passing translation of `validate`: the result paired with the
store after the call.  No statement of the source writes the store, so the
translated store component is the input store itself. -/
def validateSt (pf : String → Json → List JPMatch) (vf : Json → ValidatorClass)
    (schema_path : String) (object_path : String) (instance_path : Option String)
    (store : Store) : Except PyError (List ValidationError) × Store :=
  (validate store.files pf vf schema_path object_path store.instanceDoc instance_path,
   store)

/-- A trivial file system for concrete test environments: every path holds
an empty JSON object. -/
def trivFs : String → Json := fun _ => Json.obj []

/-- A trivial path engine for concrete test environments: every query
matches the whole document, exactly once, at the root path. -/
def trivPf : String → Json → List JPMatch :=
  fun _ d => [{ value := d, full_path := "$" }]

/-- A path engine that matches only the query `"a"` (exactly once, with
the whole document), and matches nothing otherwise. -/
def onlyAPf : String → Json → List JPMatch :=
  fun q d => if q = "a" then [{ value := d, full_path := "$" }] else []

/-- A validation engine for which every schema is well-formed and every
instance is valid (no errors). -/
def trivVf : Json → ValidatorClass :=
  fun _ => { check_schema := fun _ => .ok ()
             construct := fun _ _ => { iter_errors := fun _ => [] } }

/-- A validation engine for which every schema fails meta-validation. -/
def badSchemaVf : Json → ValidatorClass :=
  fun _ => { check_schema := fun _ => .error "bad schema"
             construct := fun _ _ => { iter_errors := fun _ => [] } }

/-- A validation engine that reports one leaf error tree for every
instance. -/
def oneErrVf : Json → ValidatorClass :=
  fun _ => { check_schema := fun _ => .ok ()
             construct := fun _ _ =>
               { iter_errors := fun _ => [JsonschemaError.mk "boom" "$" []] } }

/-! ## Helper lemmas -/

/-- The loop of `_collect_errors` concatenates the children's results in
order. -/
theorem collectErrorsAll_eq_flatMap (l : List JsonschemaError) :
    collectErrorsAll l = l.flatMap collect_errors := by
  induction l with
  | nil => simp [collectErrorsAll]
  | cons e es ih => simp [collectErrorsAll, ih]

/-- Pre-order traversal of a forest concatenates the trees' traversals. -/
theorem preorderAll_eq_flatMap (l : List JsonschemaError) :
    preorderAll l = l.flatMap preorder := by
  induction l with
  | nil => simp [preorderAll]
  | cons e es ih => simp [preorderAll, ih]

mutual

/-- `_collect_errors` emits exactly the leaves of the pre-order traversal,
in order, each as its own message/path pair. -/
theorem collect_errors_eq_aux (e : JsonschemaError) :
    collect_errors e = ((preorder e).filter isLeaf).map leafEntry := by
  cases e with
  | mk m p ctx =>
    cases ctx with
    | nil =>
      simp [collect_errors, preorder, preorderAll, isLeaf, JsonschemaError.context,
        leafEntry, JsonschemaError.message, JsonschemaError.json_path]
    | cons c cs =>
      rw [collect_errors, collectErrorsAll_eq_aux (c :: cs)]
      simp [preorder, isLeaf, JsonschemaError.context]

/-- Forest version of `collect_errors_eq_aux`. -/
theorem collectErrorsAll_eq_aux (l : List JsonschemaError) :
    collectErrorsAll l = ((preorderAll l).filter isLeaf).map leafEntry := by
  cases l with
  | nil => simp [collectErrorsAll, preorderAll]
  | cons e es =>
    rw [collectErrorsAll, collect_errors_eq_aux e, collectErrorsAll_eq_aux es]
    simp [preorderAll, List.filter_append]

end

/-- `_collect_errors` never returns an empty list: every finite error tree
bottoms out in at least one leaf. -/
theorem collect_errors_ne_nil_aux (e : JsonschemaError) : collect_errors e ≠ [] := by
  cases e with
  | mk m p ctx =>
    cases ctx with
    | nil => simp [collect_errors]
    | cons c cs =>
      rw [collect_errors, collectErrorsAll]
      simp [collect_errors_ne_nil_aux c]

/-- Unfolding of `validate` on its success path: when the schema query has
exactly one match, the instance fragment resolves to `val` (the whole
instance when no query is given, the unique match's value otherwise), and
the schema fragment passes meta-validation, `validate` returns the
flattened errors of `iter_errors` run on `val` by a validator constructed
with the schema fragment and a resolver on the document URI and the whole
document. -/
theorem validate_ok_eq (fs : String → Json) (pf : String → Json → List JPMatch)
    (vf : Json → ValidatorClass) (sp op : String) (inst : Json) (ip : Option String)
    (sm : JPMatch) (val : Json)
    (hs : pf op (fs sp) = [sm])
    (hv : ip = none ∧ val = inst ∨
      ∃ q im, ip = some q ∧ pf q inst = [im] ∧ val = im.value)
    (hc : (vf sm.value).check_schema sm.value = .ok ()) :
    validate fs pf vf sp op inst ip =
      .ok ((((vf sm.value).construct sm.value
        { base_uri := path_as_uri sp, referrer := fs sp }).iter_errors val).flatMap
          collect_errors) := by
  rcases hv with ⟨hip, hval⟩ | ⟨q, im, hip, hq, hval⟩
  · subst hip; subst hval
    simp [validate, hs, hc]
  · subst hip; subst hval
    simp [validate, hs, hq, hc]

/-- Unfolding of `validate` when meta-validation fails: once both fragments
are resolved, a schema fragment rejected by `check_schema` makes `validate`
raise that `SchemaError`, whatever the validator's `iter_errors` would
report. -/
theorem validate_schema_error_eq (fs : String → Json) (pf : String → Json → List JPMatch)
    (vf : Json → ValidatorClass) (sp op : String) (inst : Json) (ip : Option String)
    (sm : JPMatch) (val : Json) (msg : String)
    (hs : pf op (fs sp) = [sm])
    (hv : ip = none ∧ val = inst ∨
      ∃ q im, ip = some q ∧ pf q inst = [im] ∧ val = im.value)
    (hc : (vf sm.value).check_schema sm.value = .error msg) :
    validate fs pf vf sp op inst ip = .error (.schemaError msg) := by
  rcases hv with ⟨hip, hval⟩ | ⟨q, im, hip, hq, hval⟩
  · subst hip; subst hval
    simp [validate, hs, hc]
  · subst hip; subst hval
    simp [validate, hs, hq, hc]

/-! ## Claim theorems -/

/-- C1: error flattening is order-preserving and leaf-only — for every
hierarchical error tree, `_collect_errors` returns exactly one entry per
leaf in the pre-order traversal of the tree, each entry carrying only that
leaf's message and json_path; a composite error node (one with child
errors) is filtered out of the traversal and contributes none of its own
message. -/
theorem collect_errors_preorder_leaf_only (e : JsonschemaError) :
    collect_errors e = ((preorder e).filter isLeaf).map leafEntry :=
  collect_errors_eq_aux e

/-- C9: a raw error node whose child list is empty is treated as a leaf —
`_collect_errors` returns exactly one entry with that node's own message
and path — while a non-empty child list triggers the composite case, which
concatenates the children's flattenings and discards the node's own
message. -/
theorem collect_errors_empty_context_leaf :
    (∀ m p, collect_errors (.mk m p []) = [{ message := m, json_path := p }]) ∧
    (∀ m p c cs, collect_errors (.mk m p (c :: cs)) =
      (c :: cs).flatMap collect_errors) := by
  refine ⟨fun m p => rfl, fun m p c cs => ?_⟩
  rw [collect_errors, collectErrorsAll_eq_flatMap]

/-- C2: fragment resolution enforces unique match — `validate` raises a
fatal `ValueError` whose message reports the actual match count whenever
the schema path query, or (once the schema query matched once) the
instance path query, matches a number of nodes different from exactly 1;
it never proceeds with a default fragment. -/
theorem validate_unique_match_enforced (fs : String → Json)
    (pf : String → Json → List JPMatch) (vf : Json → ValidatorClass)
    (sp op : String) (inst : Json) :
    (∀ ip, (pf op (fs sp)).length ≠ 1 →
      validate fs pf vf sp op inst ip =
        .error (.valueError
          (foundMatchesMsg (pf op (fs sp)).length op "OpenAPI definition"))) ∧
    (∀ sm q, pf op (fs sp) = [sm] → (pf q inst).length ≠ 1 →
      validate fs pf vf sp op inst (some q) =
        .error (.valueError
          (foundMatchesMsg (pf q inst).length q "value to validate"))) := by
  constructor
  · intro ip hlen
    match hms : pf op (fs sp) with
    | [] => simp [validate, hms]
    | [m] => rw [hms] at hlen; simp at hlen
    | m :: m2 :: rest => simp [validate, hms]
  · intro sm q hs hlen
    match hms : pf q inst with
    | [] => simp [validate, hs, hms]
    | [m] => rw [hms] at hlen; simp at hlen
    | m :: m2 :: rest => simp [validate, hs, hms]

/-- Witness for C2 at a concrete input: with the path engine that only
matches query `"a"`, the schema query `"b"` yields 0 matches and `validate`
raises the `ValueError` reporting 0 matches; and with schema query `"a"`
matching once, an instance query `"b"` with 0 matches raises the
instance-side `ValueError`. -/
theorem validate_unique_match_enforced_witness :
    validate trivFs onlyAPf trivVf "s.json" "b" Json.null none =
      .error (.valueError (foundMatchesMsg 0 "b" "OpenAPI definition")) ∧
    validate trivFs onlyAPf trivVf "s.json" "a" Json.null (some "b") =
      .error (.valueError (foundMatchesMsg 0 "b" "value to validate")) := by
  constructor
  · exact (validate_unique_match_enforced trivFs onlyAPf trivVf "s.json" "b"
      Json.null).1 none (by decide)
  · exact (validate_unique_match_enforced trivFs onlyAPf trivVf "s.json" "a"
      Json.null).2 { value := Json.obj [], full_path := "$" } "b" rfl
      (by decide)

/-- C3 counterexample: meta-validation does not precede instance fragment
resolution.  With a validation engine under which every schema is
malformed (`badSchemaVf`, whose `check_schema` always fails) and an
instance path query matching 0 nodes, `validate` raises the
instance-resolution `ValueError` — not the `SchemaError` the claim's
ordering would require. -/
theorem validate_meta_before_instance_cex :
    validate trivFs onlyAPf badSchemaVf "s.json" "a" (Json.obj []) (some "b") =
      .error (.valueError (foundMatchesMsg 0 "b" "value to validate")) ∧
    (badSchemaVf (Json.obj [])).check_schema (Json.obj []) = .error "bad schema" := by
  constructor <;> rfl

/-- C3 (amended): `validate` meta-validates the resolved schema fragment
and raises the fatal `SchemaError` after the instance fragment is resolved
but before any instance is validated against the schema: once both
fragments resolve, a malformed schema fragment yields the `SchemaError`
for every possible validator behaviour (`vf`'s `construct`/`iter_errors`
are unconstrained, so no validation outcome can influence the result). -/
theorem validate_meta_validation_before_validation (fs : String → Json)
    (pf : String → Json → List JPMatch) (vf : Json → ValidatorClass)
    (sp op : String) (inst : Json) (ip : Option String)
    (sm : JPMatch) (val : Json) (msg : String)
    (hs : pf op (fs sp) = [sm])
    (hv : ip = none ∧ val = inst ∨
      ∃ q im, ip = some q ∧ pf q inst = [im] ∧ val = im.value)
    (hc : (vf sm.value).check_schema sm.value = .error msg) :
    validate fs pf vf sp op inst ip = .error (.schemaError msg) :=
  validate_schema_error_eq fs pf vf sp op inst ip sm val msg hs hv hc

/-- Witness for the amended C3 at a concrete input: with every query
matching the whole document once and a schema engine rejecting every
schema, `validate` returns the `SchemaError`. -/
theorem validate_meta_validation_before_validation_witness :
    validate trivFs trivPf badSchemaVf "s.json" "$" Json.null none =
      .error (.schemaError "bad schema") := by
  exact validate_meta_validation_before_validation trivFs trivPf badSchemaVf
    "s.json" "$" Json.null none { value := Json.obj [], full_path := "$" }
    Json.null "bad schema" rfl (Or.inl ⟨rfl, rfl⟩) rfl

/-- C5: reference resolution is document-relative — on every success path,
the validator is constructed with a `RefResolver` whose base URI is the
schema document's file URI and whose referrer is the entire loaded schema
document `fs sp`, independent of the schema fragment query `op` and of the
selected fragment, for both the whole-instance and the resolved-fragment
cases. -/
theorem validate_resolver_document_relative (fs : String → Json)
    (pf : String → Json → List JPMatch) (vf : Json → ValidatorClass)
    (sp op : String) (inst : Json) (sm : JPMatch)
    (hs : pf op (fs sp) = [sm])
    (hc : (vf sm.value).check_schema sm.value = .ok ()) :
    (validate fs pf vf sp op inst none =
      .ok ((((vf sm.value).construct sm.value
        { base_uri := path_as_uri sp, referrer := fs sp }).iter_errors inst).flatMap
          collect_errors)) ∧
    (∀ q im, pf q inst = [im] →
      validate fs pf vf sp op inst (some q) =
        .ok ((((vf sm.value).construct sm.value
          { base_uri := path_as_uri sp, referrer := fs sp }).iter_errors
            im.value).flatMap collect_errors)) := by
  constructor
  · exact validate_ok_eq fs pf vf sp op inst none sm inst hs (Or.inl ⟨rfl, rfl⟩) hc
  · intro q im hq
    exact validate_ok_eq fs pf vf sp op inst (some q) sm im.value hs
      (Or.inr ⟨q, im, rfl, hq, rfl⟩) hc

/-- Witness for C5 at a concrete input: with the trivial engines, both the
no-instance-path and the instance-path cases return the flattened (empty)
error list of a validator built on the document-level resolver. -/
theorem validate_resolver_document_relative_witness :
    validate trivFs trivPf trivVf "s.json" "$" Json.null none = .ok [] ∧
    validate trivFs trivPf trivVf "s.json" "$" Json.null (some "$") = .ok [] := by
  have h := validate_resolver_document_relative trivFs trivPf trivVf "s.json" "$"
    Json.null { value := Json.obj [], full_path := "$" } rfl rfl
  exact ⟨h.1, h.2 "$" { value := Json.null, full_path := "$" } rfl⟩

/-- C6: whole-document fallback — when `instance_path` is `none`,
`validate` never queries the path engine against the instance (any two
engines agreeing on the single schema-side query give the same result) and
validates the whole instance document as the fragment. -/
theorem validate_whole_document_fallback (fs : String → Json)
    (pf pf2 : String → Json → List JPMatch) (vf : Json → ValidatorClass)
    (sp op : String) (inst : Json)
    (hagree : pf op (fs sp) = pf2 op (fs sp)) :
    validate fs pf vf sp op inst none = validate fs pf2 vf sp op inst none ∧
    (∀ sm, pf op (fs sp) = [sm] → (vf sm.value).check_schema sm.value = .ok () →
      validate fs pf vf sp op inst none =
        .ok ((((vf sm.value).construct sm.value
          { base_uri := path_as_uri sp, referrer := fs sp }).iter_errors inst).flatMap
            collect_errors)) := by
  constructor
  · show (match pf op (fs sp) with
      | [sm] => _
      | other => _) = (match pf2 op (fs sp) with
      | [sm] => _
      | other => _)
    rw [hagree]
  · intro sm hs hc
    exact validate_ok_eq fs pf vf sp op inst none sm inst hs (Or.inl ⟨rfl, rfl⟩) hc

/-- Witness for C6 at a concrete input: `trivPf` and `onlyAPf` agree on the
schema query `"a"`, so the two runs coincide, and the whole instance
document is what gets validated (zero errors under `trivVf`). -/
theorem validate_whole_document_fallback_witness :
    validate trivFs trivPf trivVf "s.json" "a" Json.null none =
      validate trivFs onlyAPf trivVf "s.json" "a" Json.null none ∧
    validate trivFs trivPf trivVf "s.json" "a" Json.null none = .ok [] := by
  have h := validate_whole_document_fallback trivFs trivPf onlyAPf trivVf
    "s.json" "a" Json.null rfl
  exact ⟨h.1, h.2 { value := Json.obj [], full_path := "$" } rfl rfl⟩

/-- C7: fragment resolution and validation are deterministic — the
embedded path engine is a function, so two evaluations of the same query
against the same document yield the same match sequence, and two runs of
`validate` with extensionally equal engines on the same inputs yield the
same result. -/
theorem validate_deterministic (fs : String → Json)
    (pf pf2 : String → Json → List JPMatch) (vf : Json → ValidatorClass)
    (sp op : String) (inst : Json) (ip : Option String)
    (h : ∀ q d, pf q d = pf2 q d) :
    pf op (fs sp) = pf2 op (fs sp) ∧
    validate fs pf vf sp op inst ip = validate fs pf2 vf sp op inst ip := by
  have hpf : pf = pf2 := funext fun q => funext fun d => h q d
  subst hpf
  exact ⟨rfl, rfl⟩

/-- Witness for C7 at a concrete input. -/
theorem validate_deterministic_witness :
    trivPf "$" (trivFs "s.json") = trivPf "$" (trivFs "s.json") ∧
    validate trivFs trivPf trivVf "s.json" "$" Json.null none =
      validate trivFs trivPf trivVf "s.json" "$" Json.null none :=
  validate_deterministic trivFs trivPf trivPf trivVf "s.json" "$" Json.null none
    (fun _ _ => rfl)

/-- C8: `validate` does not mutate its inputs — the state-passing
translation of `validate` over the store holding the file system and the
caller's instance document returns the store unchanged (the source body
contains no assignment to either document; its only effects are file
reads), and its result is the pure `validate` of the store's contents. -/
theorem validateSt_no_mutation (pf : String → Json → List JPMatch)
    (vf : Json → ValidatorClass) (sp op : String) (ip : Option String)
    (store : Store) :
    (validateSt pf vf sp op ip store).2 = store ∧
    (validateSt pf vf sp op ip store).1 =
      validate store.files pf vf sp op store.instanceDoc ip :=
  ⟨rfl, rfl⟩

/-- C10: flattening never drops an error entirely — `_collect_errors`
returns at least one entry for every error tree, and on every success path
of `validate`, a non-empty list of top-level error trees from the
validation engine yields a non-empty flattened error list. -/
theorem collect_errors_never_empty :
    (∀ e, collect_errors e ≠ []) ∧
    (∀ (fs : String → Json) (pf : String → Json → List JPMatch)
      (vf : Json → ValidatorClass) (sp op : String) (inst : Json)
      (ip : Option String) (sm : JPMatch) (val : Json),
      pf op (fs sp) = [sm] →
      (ip = none ∧ val = inst ∨
        ∃ q im, ip = some q ∧ pf q inst = [im] ∧ val = im.value) →
      (vf sm.value).check_schema sm.value = .ok () →
      ((vf sm.value).construct sm.value
        { base_uri := path_as_uri sp, referrer := fs sp }).iter_errors val ≠ [] →
      ∃ l, validate fs pf vf sp op inst ip = .ok l ∧ l ≠ []) := by
  refine ⟨collect_errors_ne_nil_aux, ?_⟩
  intro fs pf vf sp op inst ip sm val hs hv hc hne
  refine ⟨_, validate_ok_eq fs pf vf sp op inst ip sm val hs hv hc, ?_⟩
  rcases hit : ((vf sm.value).construct sm.value
      { base_uri := path_as_uri sp, referrer := fs sp }).iter_errors val with
    _ | ⟨t, ts⟩
  · exact absurd hit hne
  · simp [collect_errors_ne_nil_aux t]

/-- Witness for C10 at a concrete input: a single leaf tree flattens to a
non-empty list, and with the engine `oneErrVf` reporting one error tree,
`validate` returns a non-empty error list. -/
theorem collect_errors_never_empty_witness :
    collect_errors (.mk "boom" "$" []) ≠ [] ∧
    ∃ l, validate trivFs trivPf oneErrVf "s.json" "$" Json.null none = .ok l ∧
      l ≠ [] := by
  refine ⟨collect_errors_never_empty.1 (.mk "boom" "$" []), ?_⟩
  exact collect_errors_never_empty.2 trivFs trivPf oneErrVf "s.json" "$"
    Json.null none { value := Json.obj [], full_path := "$" } Json.null rfl
    (Or.inl ⟨rfl, rfl⟩) rfl (by simp [oneErrVf])

/-- When every remaining check raises no exception, `main`'s loop runs
them all and its final flag is the starting flag conjoined with whether
each row's outcome matched its expectation. -/
theorem mainLoop_all_ok (fs : String → Json) (pf : String → Json → List JPMatch)
    (vf : Json → ValidatorClass) (root : String) (l : List CheckSpec) (acc : Bool)
    (h : ∀ c ∈ l, (runCheck fs pf vf root c).isOk = true) :
    mainLoop fs pf vf root l acc =
      .ok (acc && l.all (checkMatched fs pf vf root)) := by
  induction l generalizing acc with
  | nil => simp [mainLoop]
  | cons c rest ih =>
    have hc := h c (List.mem_cons_self c rest)
    rcases hre : runCheck fs pf vf root c with e | errors
    · rw [hre] at hc; simp [Except.isOk, Except.toBool] at hc
    · rw [mainLoop, hre]
      dsimp only
      rw [ih _ (fun x hx => h x (List.mem_cons_of_mem c hx))]
      have hm : checkMatched fs pf vf root c = (errors.isEmpty == c.should_validate) := by
        simp [checkMatched, hre]
      rw [List.all_cons, hm]
      cases hsv : c.should_validate <;> cases he : errors.isEmpty <;>
        simp [Bool.and_comm, Bool.and_assoc, Bool.and_left_comm]

/-- C4: orchestration aggregates without early termination — whenever no
check raises an exception, `main` runs every row of `to_validate` and
returns `true` iff each row's actual outcome (empty vs non-empty error
list) matches its `should_validate` flag; the script exits with `EX_OK`
exactly when `main` returns `true` and with `EX_SOFTWARE` when it returns
`false`. -/
theorem main_aggregates_all_checks (fs : String → Json)
    (pf : String → Json → List JPMatch) (vf : Json → ValidatorClass)
    (root : String)
    (h : ∀ c ∈ to_validate, (runCheck fs pf vf root c).isOk = true) :
    main fs pf vf root = .ok (to_validate.all (checkMatched fs pf vf root)) ∧
    mainScript fs pf vf root =
      .ok (if to_validate.all (checkMatched fs pf vf root) then EX_OK
           else EX_SOFTWARE) ∧
    (∀ b, main fs pf vf root = .ok b →
      (mainScript fs pf vf root = .ok EX_OK ↔ b = true)) := by
  have hm : main fs pf vf root =
      .ok (to_validate.all (checkMatched fs pf vf root)) := by
    rw [main, mainLoop_all_ok fs pf vf root to_validate true h]
    simp
  refine ⟨hm, ?_, ?_⟩
  · rw [mainScript, hm]
    cases to_validate.all (checkMatched fs pf vf root) <;> simp
  · intro b hb
    rw [mainScript, hb]
    cases b <;> simp [EX_OK, EX_SOFTWARE]

/-- Witness for C4 at a concrete environment: under the trivial engines
every check returns an (empty) error list without raising, and `main`
returns the conjunction of the per-row expectation matches — which is
`false` here, because the `InvalidExample_GeoZone_2_Layers` row expects a
validation failure that the trivial engine never reports. -/
theorem main_aggregates_all_checks_witness :
    (∀ c ∈ to_validate, (runCheck trivFs trivPf trivVf "r" c).isOk = true) ∧
    main trivFs trivPf trivVf "r" =
      .ok (to_validate.all (checkMatched trivFs trivPf trivVf "r")) ∧
    main trivFs trivPf trivVf "r" = .ok false := by
  have h : ∀ c ∈ to_validate, (runCheck trivFs trivPf trivVf "r" c).isOk = true := by
    decide
  refine ⟨h, (main_aggregates_all_checks trivFs trivPf trivVf "r" h).1, ?_⟩
  have hall : to_validate.all (checkMatched trivFs trivPf trivVf "r") = false := by
    decide
  rw [(main_aggregates_all_checks trivFs trivPf trivVf "r" h).1, hall]

end ValidateExamples
